import Mathlib

/-!
Verification development for the Realtime_Music_Generator repository.

The first part embeds the record-button and voice-activity-detection
script found in the repository (the script that overrides the record
button click handler and installs `onSpeechStart` and `onSpeechEnd`
callbacks on the MicVAD instance). The later parts model the
session-orchestration core described by the design document, whose
implementation is not present in the repository sources.
-/

/-- State of the recording UI script: the two module-level flags
`isRecording` and `manualControl` declared in the script. -/
structure RecState where
  isRecording : Bool
  manualControl : Bool
deriving DecidableEq, Repr

/-- Observable actions the script performs besides flag mutation:
changing the button label, invoking the stored original click handler,
clicking the stop button, and writing a console log line. -/
inductive UIAction
  | setLabelStop
  | setLabelStart
  | callOriginalClick
  | clickStopButton
  | logMessage
deriving DecidableEq, Repr

/-- Actions that start or stop a recording: invoking the original
record handler or clicking the stop button. Label changes and log
lines do not control recording. -/
def isControlAction : UIAction → Bool
  | UIAction.callOriginalClick => true
  | UIAction.clickStopButton => true
  | _ => false

/-- The overridden `recordButton.onclick` handler: sets
`manualControl := true`, then either starts recording (sets
`isRecording := true`, updates the label, calls the original handler)
or stops it (clears both flags, updates the label, clicks the stop
button). -/
def recordButtonOnclick (s : RecState) : RecState × List UIAction :=
  let s1 : RecState := { s with manualControl := true }
  if !s1.isRecording then
    ({ s1 with isRecording := true },
     [UIAction.setLabelStop, UIAction.callOriginalClick])
  else
    ({ s1 with isRecording := false, manualControl := false },
     [UIAction.setLabelStart, UIAction.clickStopButton])

/-- The `onSpeechStart` VAD callback: when not in manual control and
not recording it only writes a log line; it never mutates the flags. -/
def onSpeechStart (s : RecState) : RecState × List UIAction :=
  if !s.manualControl && !s.isRecording then (s, [UIAction.logMessage])
  else (s, [])

/-- The `onSpeechEnd` VAD callback: when not in manual control and
currently recording it only writes a log line; it never mutates the
flags. -/
def onSpeechEnd (s : RecState) : RecState × List UIAction :=
  if !s.manualControl && s.isRecording then (s, [UIAction.logMessage])
  else (s, [])

/-- C1: while manual control is active, automatic speech-start and
speech-end events are observed but not acted upon: the state (hence
`isRecording`) is unchanged and no action at all is emitted. -/
theorem c1_manual_control_masks_vad (s : RecState)
    (h : s.manualControl = true) :
    (onSpeechStart s).1 = s ∧ (onSpeechStart s).2 = [] ∧
    (onSpeechEnd s).1 = s ∧ (onSpeechEnd s).2 = [] := by
  obtain ⟨r, m⟩ := s
  cases m <;> cases r <;> simp_all [onSpeechStart, onSpeechEnd]

/-- Witness for C1 at the concrete state with both flags set. -/
theorem c1_manual_control_masks_vad_witness :
    (onSpeechStart ⟨true, true⟩).1 = (⟨true, true⟩ : RecState) ∧
    (onSpeechStart ⟨true, true⟩).2 = [] ∧
    (onSpeechEnd ⟨true, true⟩).1 = (⟨true, true⟩ : RecState) ∧
    (onSpeechEnd ⟨true, true⟩).2 = [] :=
  c1_manual_control_masks_vad ⟨true, true⟩ rfl

/-- C9: after every completed click-handler invocation the two flags
are equal, and the click toggles `isRecording`: a start click leaves
both flags true, a stop click leaves both false. -/
theorem c9_click_handler_flag_invariant (s : RecState) :
    (recordButtonOnclick s).1.manualControl =
      (recordButtonOnclick s).1.isRecording ∧
    (recordButtonOnclick s).1.isRecording = !s.isRecording := by
  obtain ⟨r, m⟩ := s
  cases r <;> cases m <;> decide

/-- C10: the automatic VAD callbacks never mutate the recording state
under any condition and never emit a recording-control action. -/
theorem c10_vad_callbacks_pure (s : RecState) :
    (onSpeechStart s).1 = s ∧ (onSpeechEnd s).1 = s ∧
    (onSpeechStart s).2.all (fun a => !isControlAction a) = true ∧
    (onSpeechEnd s).2.all (fun a => !isControlAction a) = true := by
  obtain ⟨r, m⟩ := s
  cases r <;> cases m <;> decide

/-!
OutputAssembler. Modelled from the spec: the OutputAssembler component
is described in the design document but not implemented in the
repository sources. It accepts SynthesisChunks strictly in increasing
sequence order starting at 0, rejects any out-of-order chunk with a
SequenceViolation error, and records a terminal marker.
-/

/-- Modelled from the spec: a SynthesisChunk is an ordered audio
segment with a sequence index and a terminal flag. -/
structure SynthesisChunk where
  seqIndex : Nat
  terminal : Bool
  samples : List Int
deriving DecidableEq, Repr

/-- Modelled from the spec: the error the OutputAssembler raises on an
out-of-order chunk (a synthesis-stage contract violation). -/
inductive AssemblerError
  | SequenceViolation
deriving DecidableEq, Repr

/-- Modelled from the spec: OutputAssembler state for one utterance
run: the next expected sequence index, the accepted chunks in order,
and whether the terminal chunk has been accepted. -/
structure AssemblerState where
  nextIndex : Nat
  accepted : List SynthesisChunk
  terminalSeen : Bool
deriving DecidableEq, Repr

/-- Modelled from the spec: the OutputAssembler starts a run expecting
index 0 with nothing accepted. -/
def initAssembler : AssemblerState := ⟨0, [], false⟩

/-- Modelled from the spec: a chunk is accepted only if the run is
still open and its sequence index is exactly the next expected index;
otherwise it is rejected with SequenceViolation. -/
def acceptChunk (st : AssemblerState) (c : SynthesisChunk) :
    Except AssemblerError AssemblerState :=
  if st.terminalSeen then Except.error AssemblerError.SequenceViolation
  else if c.seqIndex == st.nextIndex then
    Except.ok ⟨st.nextIndex + 1, st.accepted ++ [c], c.terminal⟩
  else Except.error AssemblerError.SequenceViolation

/-- Modelled from the spec: feed a list of chunks to the assembler; a
rejected chunk is fatal to the current run (no retry), so processing
stops at the first rejection. -/
def runAssembler : AssemblerState → List SynthesisChunk → AssemblerState
  | st, [] => st
  | st, c :: cs =>
    match acceptChunk st c with
    | Except.ok st2 => runAssembler st2 cs
    | Except.error _ => st

/-- Assembler run invariant: the accepted indices are exactly
0, 1, ..., nextIndex - 1 and the number of accepted terminal markers
is one if the terminal chunk was accepted and zero otherwise. -/
def AssemblerInv (st : AssemblerState) : Prop :=
  st.accepted.map SynthesisChunk.seqIndex = List.range st.nextIndex ∧
  st.accepted.length = st.nextIndex ∧
  st.accepted.countP (fun c => c.terminal) =
    (if st.terminalSeen then 1 else 0)

theorem acceptChunk_inv {st : AssemblerState} {c : SynthesisChunk}
    {st2 : AssemblerState} (hInv : AssemblerInv st)
    (h : acceptChunk st c = Except.ok st2) : AssemblerInv st2 := by
  obtain ⟨hidx, hlen, hcnt⟩ := hInv
  unfold acceptChunk at h
  by_cases ht : st.terminalSeen
  · simp [ht] at h
  · simp only [ht, if_false] at h
    by_cases hseq : c.seqIndex == st.nextIndex
    · simp only [hseq, if_true] at h
      cases h
      have hseq2 : c.seqIndex = st.nextIndex := by simpa using hseq
      refine ⟨?_, ?_, ?_⟩
      · simp [List.range_succ, hidx, hseq2]
      · simp [hlen]
      · cases hterm : c.terminal <;>
          simp [List.countP_append, List.countP_cons, hcnt, ht, hterm]
    · simp [hseq] at h

theorem runAssembler_inv (cs : List SynthesisChunk) :
    ∀ st : AssemblerState, AssemblerInv st →
      AssemblerInv (runAssembler st cs) := by
  induction cs with
  | nil => intro st h; exact h
  | cons c cs ih =>
    intro st h
    unfold runAssembler
    cases hacc : acceptChunk st c with
    | ok st2 => exact ih st2 (acceptChunk_inv h hacc)
    | error e => exact h

theorem initAssembler_inv : AssemblerInv initAssembler := by
  refine ⟨?_, ?_, ?_⟩ <;> simp [initAssembler]

/-- C3: an out-of-order chunk is rejected with SequenceViolation, and
for every run starting from the initial assembler state the accepted
sequence indices are gapless from 0 (hence duplicate-free) and the
number of accepted terminal markers is exactly one when the run has
accepted its terminal chunk and zero before that. -/
theorem c3_assembler_order_guarantees (chunks : List SynthesisChunk)
    (st : AssemblerState) (c : SynthesisChunk)
    (h : c.seqIndex ≠ st.nextIndex) :
    acceptChunk st c = Except.error AssemblerError.SequenceViolation ∧
    (runAssembler initAssembler chunks).accepted.map
        SynthesisChunk.seqIndex =
      List.range (runAssembler initAssembler chunks).accepted.length ∧
    (runAssembler initAssembler chunks).accepted.countP
        (fun c => c.terminal) =
      (if (runAssembler initAssembler chunks).terminalSeen then 1
       else 0) := by
  obtain ⟨hidx, hlen, hcnt⟩ :=
    runAssembler_inv chunks initAssembler initAssembler_inv
  refine ⟨?_, ?_, ?_⟩
  · unfold acceptChunk
    by_cases ht : st.terminalSeen
    · simp [ht]
    · have : (c.seqIndex == st.nextIndex) = false := by
        simp [h]
      simp [ht, this]
  · rw [hlen]; exact hidx
  · exact hcnt

/-- Witness for C3: a complete in-order run 0,1,2,terminal 3 together
with the rejection of an out-of-order chunk with index 5. -/
theorem c3_assembler_order_guarantees_witness :
    acceptChunk initAssembler ⟨5, false, []⟩ =
      Except.error AssemblerError.SequenceViolation ∧
    (runAssembler initAssembler
        [⟨0, false, []⟩, ⟨1, false, []⟩, ⟨2, false, []⟩,
         ⟨3, true, []⟩]).accepted.map SynthesisChunk.seqIndex =
      List.range (runAssembler initAssembler
        [⟨0, false, []⟩, ⟨1, false, []⟩, ⟨2, false, []⟩,
         ⟨3, true, []⟩]).accepted.length ∧
    (runAssembler initAssembler
        [⟨0, false, []⟩, ⟨1, false, []⟩, ⟨2, false, []⟩,
         ⟨3, true, []⟩]).accepted.countP (fun c => c.terminal) =
      (if (runAssembler initAssembler
          [⟨0, false, []⟩, ⟨1, false, []⟩, ⟨2, false, []⟩,
           ⟨3, true, []⟩]).terminalSeen then 1 else 0) :=
  c3_assembler_order_guarantees
    [⟨0, false, []⟩, ⟨1, false, []⟩, ⟨2, false, []⟩, ⟨3, true, []⟩]
    initAssembler ⟨5, false, []⟩ (by decide)

/-!
PipelineOrchestrator. Modelled from the spec: the per-session state
machine that sequences the four inference stages over each utterance
is described in the design document but not implemented in the
repository sources.
-/

/-- Modelled from the spec: the error modes of the external stage
services. -/
inductive StageError
  | Timeout
  | ServiceUnavailable
  | Unintelligible
  | ContentRejected
deriving DecidableEq, Repr

/-- Modelled from the spec: the four pipeline stages. -/
inductive Stage
  | transcription
  | analysis
  | lyrics
  | synthesis
deriving DecidableEq, Repr

/-- Modelled from the spec: the finite state set of the
PipelineOrchestrator. -/
inductive OrchState
  | idle
  | awaiting_utterance
  | transcribing
  | analyzing
  | generating_lyrics
  | synthesizing
  | delivering
  | failed
  | cancelled
deriving DecidableEq, Repr

/-- Modelled from the spec: the events driving the orchestrator state
machine: an utterance arriving, a stage call returning success or
failure, the terminal synthesis chunk, the assembler flush
confirmation, recovery from a failed utterance, resuming listening
after delivery, and explicit session stop. -/
inductive OrchEvent
  | utterance
  | ok
  | fail (e : StageError)
  | terminalChunk
  | flushed
  | recover
  | listen
  | stop
deriving DecidableEq, Repr

/-- Modelled from the spec: the orchestrator transition table. A stage
failure (after exhausted retries) moves to `failed` and emits a
stage-tagged error; `recover` returns to `awaiting_utterance`;
explicit stop moves any state to `cancelled`; all other unexpected
events leave the state unchanged. -/
def step : OrchState → OrchEvent → OrchState × Option (Stage × StageError)
  | _, OrchEvent.stop => (OrchState.cancelled, none)
  | OrchState.awaiting_utterance, OrchEvent.utterance =>
    (OrchState.transcribing, none)
  | OrchState.transcribing, OrchEvent.ok => (OrchState.analyzing, none)
  | OrchState.transcribing, OrchEvent.fail e =>
    (OrchState.failed, some (Stage.transcription, e))
  | OrchState.analyzing, OrchEvent.ok =>
    (OrchState.generating_lyrics, none)
  | OrchState.analyzing, OrchEvent.fail e =>
    (OrchState.failed, some (Stage.analysis, e))
  | OrchState.generating_lyrics, OrchEvent.ok =>
    (OrchState.synthesizing, none)
  | OrchState.generating_lyrics, OrchEvent.fail e =>
    (OrchState.failed, some (Stage.lyrics, e))
  | OrchState.synthesizing, OrchEvent.terminalChunk =>
    (OrchState.delivering, none)
  | OrchState.synthesizing, OrchEvent.fail e =>
    (OrchState.failed, some (Stage.synthesis, e))
  | OrchState.delivering, OrchEvent.flushed => (OrchState.idle, none)
  | OrchState.failed, OrchEvent.recover =>
    (OrchState.awaiting_utterance, none)
  | OrchState.idle, OrchEvent.listen =>
    (OrchState.awaiting_utterance, none)
  | s, _ => (s, none)

/-- Run the orchestrator over a list of events, collecting the visited
states (after each event) and the emitted stage-tagged errors. -/
def runEvents : OrchState → List OrchEvent →
    List OrchState × List (Stage × StageError)
  | _, [] => ([], [])
  | s, e :: rest =>
    let p := step s e
    let r := runEvents p.1 rest
    (p.1 :: r.1,
     (match p.2 with
      | some err => err :: r.2
      | none => r.2))

/-- Modelled from the spec: the outcome of one stage for one
utterance, after the StageClient retry policy has run its course. -/
inductive StageOutcome
  | ok
  | fail (e : StageError)
deriving DecidableEq, Repr

/-- Modelled from the spec: the environment of one utterance pipeline
run: the final outcome of each of the four stage calls. -/
structure StageEnv where
  transcription : StageOutcome
  analysis : StageOutcome
  lyrics : StageOutcome
  synthesis : StageOutcome
deriving DecidableEq, Repr

/-- The event list an utterance generates: the utterance arrival, then
each stage result in order, stopping at the first failure (which is
followed by recovery to `awaiting_utterance`); a fully successful run
ends with the terminal chunk, flush confirmation, and listening for
the next utterance. -/
def eventsFor (env : StageEnv) : List OrchEvent :=
  OrchEvent.utterance ::
  (match env.transcription with
   | StageOutcome.fail e => [OrchEvent.fail e, OrchEvent.recover]
   | StageOutcome.ok => OrchEvent.ok ::
     (match env.analysis with
      | StageOutcome.fail e => [OrchEvent.fail e, OrchEvent.recover]
      | StageOutcome.ok => OrchEvent.ok ::
        (match env.lyrics with
         | StageOutcome.fail e => [OrchEvent.fail e, OrchEvent.recover]
         | StageOutcome.ok => OrchEvent.ok ::
           (match env.synthesis with
            | StageOutcome.fail e =>
              [OrchEvent.fail e, OrchEvent.recover]
            | StageOutcome.ok =>
              [OrchEvent.terminalChunk, OrchEvent.flushed,
               OrchEvent.listen]))))

/-- One utterance pipeline run from `awaiting_utterance`: the visited
states and the emitted stage-tagged errors. -/
def processUtterance (env : StageEnv) :
    List OrchState × List (Stage × StageError) :=
  runEvents OrchState.awaiting_utterance (eventsFor env)

/-- The first failing stage of an utterance environment, with its
error, if any. -/
def firstFailure (env : StageEnv) : Option (Stage × StageError) :=
  match env.transcription with
  | StageOutcome.fail e => some (Stage.transcription, e)
  | StageOutcome.ok =>
    match env.analysis with
    | StageOutcome.fail e => some (Stage.analysis, e)
    | StageOutcome.ok =>
      match env.lyrics with
      | StageOutcome.fail e => some (Stage.lyrics, e)
      | StageOutcome.ok =>
        match env.synthesis with
        | StageOutcome.fail e => some (Stage.synthesis, e)
        | StageOutcome.ok => none

/-- Run a session over a list of utterance environments, threading the
orchestrator state from one utterance to the next; the session trace
is the concatenation of the per-utterance traces. -/
def runSessionFrom : OrchState → List StageEnv → List OrchState
  | _, [] => []
  | s, env :: rest =>
    let tr := (runEvents s (eventsFor env)).1
    tr ++ runSessionFrom (tr.getLastD s) rest

/-- C2: when an utterance pipeline fails at some stage after retries
are exhausted, the orchestrator emits exactly that stage-tagged error,
passes through the `failed` state, ends the utterance back in
`awaiting_utterance`, and the session goes on to process the next
utterance exactly as it would from a fresh `awaiting_utterance`. -/
theorem c2_stage_failure_recovers (env env2 : StageEnv) (st : Stage)
    (e : StageError) (h : firstFailure env = some (st, e)) :
    (processUtterance env).2 = [(st, e)] ∧
    OrchState.failed ∈ (processUtterance env).1 ∧
    (processUtterance env).1.getLast? =
      some OrchState.awaiting_utterance ∧
    runSessionFrom OrchState.awaiting_utterance [env, env2] =
      (processUtterance env).1 ++ (processUtterance env2).1 := by
  obtain ⟨t, a, l, sy⟩ := env
  cases t <;> cases a <;> cases l <;> cases sy <;>
    simp_all [firstFailure, processUtterance, eventsFor, runEvents,
      step, runSessionFrom]

/-- Witness for C2: a pipeline failing at the analysis stage with a
timeout, followed by a fully successful utterance. -/
theorem c2_stage_failure_recovers_witness :
    (processUtterance ⟨StageOutcome.ok, StageOutcome.fail
        StageError.Timeout, StageOutcome.ok, StageOutcome.ok⟩).2 =
      [(Stage.analysis, StageError.Timeout)] ∧
    OrchState.failed ∈ (processUtterance ⟨StageOutcome.ok,
        StageOutcome.fail StageError.Timeout, StageOutcome.ok,
        StageOutcome.ok⟩).1 ∧
    (processUtterance ⟨StageOutcome.ok, StageOutcome.fail
        StageError.Timeout, StageOutcome.ok,
        StageOutcome.ok⟩).1.getLast? =
      some OrchState.awaiting_utterance ∧
    runSessionFrom OrchState.awaiting_utterance
        [⟨StageOutcome.ok, StageOutcome.fail StageError.Timeout,
          StageOutcome.ok, StageOutcome.ok⟩,
         ⟨StageOutcome.ok, StageOutcome.ok, StageOutcome.ok,
          StageOutcome.ok⟩] =
      (processUtterance ⟨StageOutcome.ok, StageOutcome.fail
          StageError.Timeout, StageOutcome.ok, StageOutcome.ok⟩).1 ++
      (processUtterance ⟨StageOutcome.ok, StageOutcome.ok,
          StageOutcome.ok, StageOutcome.ok⟩).1 :=
  c2_stage_failure_recovers _ _ Stage.analysis StageError.Timeout
    (by decide)

/-- Tag every state of one utterance trace with that utterance's
index in first-detected order. -/
def tagged (i : Nat) (tr : List OrchState) : List (Nat × OrchState) :=
  tr.map (fun s => (i, s))

/-- The session trace with each state tagged by the index of the
utterance being processed, utterances taken in first-detected order
starting at index `i`. -/
def sessionTraceFrom (i : Nat) : List StageEnv → List (Nat × OrchState)
  | [] => []
  | env :: rest =>
    tagged i (processUtterance env).1 ++ sessionTraceFrom (i + 1) rest

/-- The states that end an utterance pipeline per the ordering
guarantee: `delivering`, `failed`, `cancelled`. -/
def terminalState : OrchState → Bool
  | OrchState.delivering => true
  | OrchState.failed => true
  | OrchState.cancelled => true
  | _ => false

/-- Ordering checker: walking the tagged trace while counting how many
pipeline-terminal states have been seen, utterance `n` may be observed
in `transcribing` only once at least `n` terminal states have
occurred, i.e. only after every earlier utterance has reached
`delivering`, `failed` or `cancelled`. -/
def checkOrder : List (Nat × OrchState) → Nat → Bool
  | [], _ => true
  | p :: rest, completed =>
    if p.2 = OrchState.transcribing ∧ completed < p.1 then false
    else
      checkOrder rest
        (if terminalState p.2 then completed + 1 else completed)

theorem checkOrder_utterance (env : StageEnv) (k : Nat)
    (rest : List (Nat × OrchState)) :
    checkOrder (tagged k (processUtterance env).1 ++ rest) k =
      checkOrder rest (k + 1) := by
  obtain ⟨t, a, l, sy⟩ := env
  cases t <;> cases a <;> cases l <;> cases sy <;>
    simp [processUtterance, eventsFor, runEvents, step, tagged,
      checkOrder, terminalState]

/-- C4: within one session, utterances are processed in
first-detected order and the tagged session trace passes the ordering
checker from every starting index: utterance N+1 is never observed in
`transcribing` before utterance N has reached `delivering`, `failed`
or `cancelled`. -/
theorem c4_utterance_ordering (envs : List StageEnv) (k : Nat) :
    checkOrder (sessionTraceFrom k envs) k = true := by
  induction envs generalizing k with
  | nil => rfl
  | cons env rest ih =>
    rw [sessionTraceFrom, checkOrder_utterance]
    exact ih (k + 1)

/-!
StageClient retry policy. Modelled from the spec: each external call
is retried on transient failures up to a fixed bounded count;
non-transient failures are not retried.
-/

/-- Modelled from the spec: the result of one attempt of an external
stage call: success, a transient failure (timeout, transport error,
rate limit), or a non-transient failure. -/
inductive AttemptResult (α : Type)
  | ok (a : α)
  | transient
  | permanent (e : StageError)
deriving DecidableEq, Repr

/-- Modelled from the spec: the typed failure a StageClient call
surfaces: retries exhausted on transient failures, or a permanent
rejection. -/
inductive StageFailure
  | retriesExhausted
  | permanentRejection (e : StageError)
deriving DecidableEq, Repr

/-- Modelled from the spec: try attempts in order starting at attempt
`start` with `fuel` attempts allowed; a transient failure consumes one
attempt and retries, a permanent failure stops immediately, exhausting
the attempts surfaces `retriesExhausted`. -/
def runAttempts {α : Type} (attempts : Nat → AttemptResult α) :
    Nat → Nat → Except StageFailure α
  | _, 0 => Except.error StageFailure.retriesExhausted
  | start, fuel + 1 =>
    match attempts start with
    | AttemptResult.ok a => Except.ok a
    | AttemptResult.permanent e =>
      Except.error (StageFailure.permanentRejection e)
    | AttemptResult.transient => runAttempts attempts (start + 1) fuel

/-- Modelled from the spec: a StageClient call with a retry limit: one
initial attempt plus up to `retryLimit` retries. -/
def callStage {α : Type} (retryLimit : Nat)
    (attempts : Nat → AttemptResult α) : Except StageFailure α :=
  runAttempts attempts 0 (retryLimit + 1)

/-- The orchestrator event a finished StageClient call induces:
success drives the stage-success transition, exhausted transient
retries surface as a timeout-tagged failure, a permanent rejection
carries its own error. -/
def eventOfOutcome {α : Type} : Except StageFailure α → OrchEvent
  | Except.ok _ => OrchEvent.ok
  | Except.error StageFailure.retriesExhausted =>
    OrchEvent.fail StageError.Timeout
  | Except.error (StageFailure.permanentRejection e) => OrchEvent.fail e

theorem runAttempts_transient_then_ok {α : Type}
    (attempts : Nat → AttemptResult α) (a : α) :
    ∀ (n start fuel : Nat), n < fuel →
      (∀ i, i < n → attempts (start + i) = AttemptResult.transient) →
      attempts (start + n) = AttemptResult.ok a →
      runAttempts attempts start fuel = Except.ok a := by
  intro n
  induction n with
  | zero =>
    intro start fuel hfuel _ hok
    match fuel, hfuel with
    | fuel + 1, _ =>
      simp only [runAttempts]
      simp only [Nat.add_zero] at hok
      rw [hok]
  | succ n ih =>
    intro start fuel hfuel htrans hok
    match fuel, hfuel with
    | fuel + 1, hfuel =>
      have h0 : attempts start = AttemptResult.transient := by
        have := htrans 0 (Nat.succ_pos n)
        simpa using this
      simp only [runAttempts, h0]
      refine ih (start + 1) fuel (Nat.lt_of_succ_lt_succ hfuel) ?_ ?_
      · intro i hi
        have := htrans (i + 1) (Nat.succ_lt_succ hi)
        have harr : start + (i + 1) = start + 1 + i := by omega
        rwa [harr] at this
      · have harr : start + (n + 1) = start + 1 + n := by omega
        rwa [harr] at hok

/-- C5: a StageClient call that fails transiently N times and then
succeeds, with N below the retry limit, produces the same result as a
call that succeeds on its first attempt, and induces the same
orchestrator transition from every state. -/
theorem c5_retry_outcome_equivalence {α : Type} (retryLimit n : Nat)
    (attempts : Nat → AttemptResult α) (a : α) (s : OrchState)
    (hn : n < retryLimit)
    (htrans : ∀ i, i < n → attempts i = AttemptResult.transient)
    (hok : attempts n = AttemptResult.ok a) :
    callStage retryLimit attempts = Except.ok a ∧
    callStage retryLimit attempts =
      callStage retryLimit (fun _ => AttemptResult.ok a) ∧
    step s (eventOfOutcome (callStage retryLimit attempts)) =
      step s (eventOfOutcome
        (callStage retryLimit (fun _ => AttemptResult.ok a))) := by
  have hconst : callStage retryLimit (fun _ => AttemptResult.ok a) =
      Except.ok a := by
    simp [callStage, runAttempts]
  have hcall : callStage retryLimit attempts = Except.ok a := by
    refine runAttempts_transient_then_ok attempts a n 0
      (retryLimit + 1) (by omega) ?_ ?_
    · intro i hi
      simpa using htrans i hi
    · simpa using hok
  refine ⟨hcall, ?_, ?_⟩
  · rw [hcall, hconst]
  · rw [hcall, hconst]

/-- Witness for C5: two transient failures then success with retry
limit 3, compared against immediate success, observed from the
`transcribing` state. -/
theorem c5_retry_outcome_equivalence_witness :
    callStage 3 (fun i => if i < 2 then AttemptResult.transient
        else AttemptResult.ok 42) = Except.ok 42 ∧
    callStage 3 (fun i => if i < 2 then AttemptResult.transient
        else AttemptResult.ok 42) =
      callStage 3 (fun _ => AttemptResult.ok 42) ∧
    step OrchState.transcribing (eventOfOutcome (callStage 3
        (fun i => if i < 2 then AttemptResult.transient
          else AttemptResult.ok 42))) =
      step OrchState.transcribing (eventOfOutcome
        (callStage 3 (fun _ => AttemptResult.ok 42))) :=
  c5_retry_outcome_equivalence 3 2
    (fun i => if i < 2 then AttemptResult.transient
      else AttemptResult.ok 42) 42 OrchState.transcribing
    (by decide) (by decide) (by decide)

/-!
SessionManager. Modelled from the spec: the component owning the set
of active sessions, enforcing the capacity limit on `startSession` and
providing an idempotent `stopSession`.
-/

/-- Modelled from the spec: one session: identifier, orchestrator
state, genre configuration, and whether its resources have been
released. -/
structure Session where
  sid : Nat
  state : OrchState
  genre : String
  resourcesReleased : Bool
deriving DecidableEq, Repr

/-- Modelled from the spec: errors of the session-lifecycle boundary. -/
inductive ManagerError
  | CapacityExceeded
deriving DecidableEq, Repr

/-- Modelled from the spec: the SessionManager owns the configured
maximum number of concurrent sessions, the session map (a list of
identifier and session pairs), and the next fresh identifier. -/
structure ManagerState where
  maxSessions : Nat
  sessions : List (Nat × Session)
  nextId : Nat
deriving DecidableEq, Repr

/-- A session counts toward the concurrency limit while it is not
cancelled. -/
def isActiveSession (p : Nat × Session) : Bool :=
  !(p.2.state == OrchState.cancelled)

/-- The number of active sessions. -/
def activeCount (m : ManagerState) : Nat :=
  (m.sessions.filter isActiveSession).length

/-- Modelled from the spec: `startSession` fails with
`CapacityExceeded` when the configured maximum number of concurrent
sessions is reached, leaving the manager state unchanged; otherwise it
creates a fresh session in `awaiting_utterance`. -/
def startSession (m : ManagerState) (genre : String) :
    ManagerState × Except ManagerError Nat :=
  if m.maxSessions ≤ activeCount m then
    (m, Except.error ManagerError.CapacityExceeded)
  else
    ({ m with
        sessions := m.sessions ++
          [(m.nextId,
            ⟨m.nextId, OrchState.awaiting_utterance, genre, false⟩)],
        nextId := m.nextId + 1 },
     Except.ok m.nextId)

/-- Cancel one session entry when its key matches: the orchestrator
state becomes `cancelled` and resources are released. -/
def stopOne (id : Nat) (p : Nat × Session) : Nat × Session :=
  if id == p.1 then
    (p.1, { p.2 with state := OrchState.cancelled,
                     resourcesReleased := true })
  else p

/-- Modelled from the spec: `stopSession` transitions the identified
session to `cancelled` and releases its resources; it reports no
error and is idempotent if the session is already stopped. -/
def stopSession (m : ManagerState) (id : Nat) : ManagerState :=
  { m with sessions := m.sessions.map (stopOne id) }

/-- C6: a `startSession` request arriving when the configured maximum
number of concurrent sessions is reached fails with
`CapacityExceeded` and creates no session: the manager state,
including the set of active sessions, is returned unchanged. -/
theorem c6_capacity_exceeded (m : ManagerState) (genre : String)
    (h : m.maxSessions ≤ activeCount m) :
    startSession m genre = (m, Except.error ManagerError.CapacityExceeded) := by
  simp [startSession, h]

/-- Witness for C6: a manager with capacity one and one active
session rejects a second start request. -/
theorem c6_capacity_exceeded_witness :
    startSession
        ⟨1, [(0, ⟨0, OrchState.awaiting_utterance, "pop", false⟩)], 1⟩
        "jazz" =
      (⟨1, [(0, ⟨0, OrchState.awaiting_utterance, "pop", false⟩)], 1⟩,
       Except.error ManagerError.CapacityExceeded) :=
  c6_capacity_exceeded
    ⟨1, [(0, ⟨0, OrchState.awaiting_utterance, "pop", false⟩)], 1⟩
    "jazz" (by decide)

theorem stopOne_idem (id : Nat) (p : Nat × Session) :
    stopOne id (stopOne id p) = stopOne id p := by
  unfold stopOne
  cases h : (id == p.1) <;> simp [h]

theorem map_stopOne_idem (id : Nat) (l : List (Nat × Session)) :
    (l.map (stopOne id)).map (stopOne id) = l.map (stopOne id) := by
  induction l with
  | nil => rfl
  | cons p l ih => simp [stopOne_idem, ih]

theorem lookup_map_stopOne (id : Nat) (l : List (Nat × Session)) :
    (l.map (stopOne id)).lookup id =
      (l.lookup id).map (fun s =>
        { s with state := OrchState.cancelled,
                 resourcesReleased := true }) := by
  induction l with
  | nil => rfl
  | cons p l ih =>
    obtain ⟨k, v⟩ := p
    cases h : (id == k) with
    | false =>
      have hs : stopOne id (k, v) = (k, v) := by simp [stopOne, h]
      rw [List.map_cons, hs, List.lookup_cons, List.lookup_cons]
      simp only [h]
      exact ih
    | true =>
      have hs : stopOne id (k, v) =
          (k, { v with state := OrchState.cancelled,
                       resourcesReleased := true }) := by
        simp [stopOne, h]
      rw [List.map_cons, hs, List.lookup_cons, List.lookup_cons]
      simp only [h]
      rfl

/-- C8: `stopSession` is idempotent: stopping an already stopped
session changes nothing, and after a stop the identified session (if
it exists) is `cancelled` with its resources released. `stopSession`
never reports an error, so the second call has the same outcome as
the first. -/
theorem c8_stop_session_idempotent (m : ManagerState) (id : Nat) :
    stopSession (stopSession m id) id = stopSession m id ∧
    (stopSession m id).sessions.lookup id =
      (m.sessions.lookup id).map (fun s =>
        { s with state := OrchState.cancelled,
                 resourcesReleased := true }) := by
  constructor
  · unfold stopSession
    simp only [map_stopOne_idem]
  · exact lookup_map_stopOne id m.sessions

/-!
VoiceActivityGate. Modelled from the spec: the gate converts a
classified audio-frame stream into bounded utterances, closing an
utterance after a sustained-silence hangover and force-closing it at
the configured maximum duration.
-/

/-- Modelled from the spec: per-frame classification produced by the
speech-presence classifier. -/
inductive VadClass
  | speech
  | silence
deriving DecidableEq, Repr

/-- Modelled from the spec: gate configuration: the hangover duration
and the maximum utterance duration, both in frames (frames have a
fixed duration). -/
structure GateConfig where
  hangoverFrames : Nat
  maxFrames : Nat
deriving DecidableEq, Repr

/-- Modelled from the spec: gate state: whether an utterance is open,
the frames buffered for it, and the current run of consecutive
silence frames. -/
structure VAGState where
  speaking : Bool
  buffer : List Nat
  silenceRun : Nat
deriving DecidableEq, Repr

/-- The gate before any frame arrives: silence, empty buffer. -/
def initGate : VAGState := ⟨false, [], 0⟩

/-- Modelled from the spec: process one classified frame. A
silence-to-speech transition opens an utterance; sustained silence for
the hangover duration closes and emits it; and whenever the buffered
duration reaches the configured maximum the utterance is force-closed
and emitted immediately, so the buffer never grows past the cap. -/
def stepFrame (cfg : GateConfig) (st : VAGState) (f : Nat)
    (c : VadClass) : VAGState × Option (List Nat) :=
  if st.speaking then
    let buf := st.buffer ++ [f]
    if cfg.maxFrames ≤ buf.length then (⟨false, [], 0⟩, some buf)
    else
      match c with
      | VadClass.speech => (⟨true, buf, 0⟩, none)
      | VadClass.silence =>
        if cfg.hangoverFrames ≤ st.silenceRun + 1 then
          (⟨false, [], 0⟩, some buf)
        else (⟨true, buf, st.silenceRun + 1⟩, none)
  else
    match c with
    | VadClass.speech =>
      if cfg.maxFrames ≤ 1 then (⟨false, [], 0⟩, some [f])
      else (⟨true, [f], 0⟩, none)
    | VadClass.silence => (st, none)

/-- Run the gate over a classified frame stream, collecting the
emitted utterances. -/
def runGate (cfg : GateConfig) :
    VAGState → List (Nat × VadClass) → VAGState × List (List Nat)
  | st, [] => (st, [])
  | st, (f, c) :: rest =>
    let p := stepFrame cfg st f c
    let r := runGate cfg p.1 rest
    (r.1,
     (match p.2 with
      | some u => u :: r.2
      | none => r.2))

/-- Gate invariant: while an utterance is open its buffer is strictly
below the cap, and while the gate is silent the buffer is empty. -/
def GateInv (cfg : GateConfig) (st : VAGState) : Prop :=
  (st.speaking = true → st.buffer.length < cfg.maxFrames) ∧
  (st.speaking = false → st.buffer = [])

theorem stepFrame_inv (cfg : GateConfig) (st : VAGState) (f : Nat)
    (c : VadClass) (hmax : 0 < cfg.maxFrames)
    (hInv : GateInv cfg st) :
    GateInv cfg (stepFrame cfg st f c).1 ∧
    (∀ u, (stepFrame cfg st f c).2 = some u →
      u.length ≤ cfg.maxFrames) := by
  obtain ⟨hspeak, hsil⟩ := hInv
  obtain ⟨sp, buf, run⟩ := st
  cases sp with
  | true =>
    have hlen : buf.length < cfg.maxFrames := hspeak rfl
    by_cases hcap : cfg.maxFrames ≤ buf.length + 1
    · have heq : stepFrame cfg ⟨true, buf, run⟩ f c =
          (⟨false, [], 0⟩, some (buf ++ [f])) := by
        simp [stepFrame, hcap]
      rw [heq]
      refine ⟨⟨fun h => by simp at h, fun _ => rfl⟩, fun u hu => ?_⟩
      cases hu
      simp
      omega
    · cases c with
      | speech =>
        have heq : stepFrame cfg ⟨true, buf, run⟩ f VadClass.speech =
            (⟨true, buf ++ [f], 0⟩, none) := by
          simp [stepFrame, hcap]
        rw [heq]
        refine ⟨⟨fun _ => ?_, fun h => by simp at h⟩,
          fun u hu => by cases hu⟩
        simp
        omega
      | silence =>
        by_cases hho : cfg.hangoverFrames ≤ run + 1
        · have heq :
              stepFrame cfg ⟨true, buf, run⟩ f VadClass.silence =
                (⟨false, [], 0⟩, some (buf ++ [f])) := by
            simp [stepFrame, hcap, hho]
          rw [heq]
          refine ⟨⟨fun h => by simp at h, fun _ => rfl⟩,
            fun u hu => ?_⟩
          cases hu
          simp
          omega
        · have heq :
              stepFrame cfg ⟨true, buf, run⟩ f VadClass.silence =
                (⟨true, buf ++ [f], run + 1⟩, none) := by
            simp [stepFrame, hcap, hho]
          rw [heq]
          refine ⟨⟨fun _ => ?_, fun h => by simp at h⟩,
            fun u hu => by cases hu⟩
          simp
          omega
  | false =>
    have hbuf : buf = [] := hsil rfl
    subst hbuf
    cases c with
    | speech =>
      by_cases hone : cfg.maxFrames ≤ 1
      · have heq : stepFrame cfg ⟨false, [], run⟩ f VadClass.speech =
            (⟨false, [], 0⟩, some [f]) := by
          simp [stepFrame, hone]
        rw [heq]
        refine ⟨⟨fun h => by simp at h, fun _ => rfl⟩, fun u hu => ?_⟩
        cases hu
        simpa using hmax
      · have heq : stepFrame cfg ⟨false, [], run⟩ f VadClass.speech =
            (⟨true, [f], 0⟩, none) := by
          simp [stepFrame, hone]
        rw [heq]
        refine ⟨⟨fun _ => ?_, fun h => by simp at h⟩,
          fun u hu => by cases hu⟩
        simp
        omega
    | silence =>
      have heq : stepFrame cfg ⟨false, [], run⟩ f VadClass.silence =
          (⟨false, [], run⟩, none) := by
        simp [stepFrame]
      rw [heq]
      exact ⟨⟨fun h => by simp at h, fun _ => rfl⟩,
        fun u hu => by cases hu⟩

theorem runGate_bounded (cfg : GateConfig) (hmax : 0 < cfg.maxFrames)
    (frames : List (Nat × VadClass)) :
    ∀ st : VAGState, GateInv cfg st →
      ((runGate cfg st frames).2.all
        (fun u => decide (u.length ≤ cfg.maxFrames))) = true := by
  induction frames with
  | nil => intro st _; rfl
  | cons p rest ih =>
    intro st hInv
    obtain ⟨f, c⟩ := p
    obtain ⟨hInv2, hemit⟩ := stepFrame_inv cfg st f c hmax hInv
    rw [runGate]
    cases hstep : (stepFrame cfg st f c).2 with
    | none =>
      simp only [hstep]
      exact ih (stepFrame cfg st f c).1 hInv2
    | some u =>
      simp only [hstep, List.all_cons]
      rw [ih (stepFrame cfg st f c).1 hInv2]
      simp [hemit u hstep]

/-- C7: with a positive configured maximum duration, every utterance
the gate emits over any classified frame stream has length at most
the cap: an utterance whose buffered duration would exceed the
maximum is force-closed and emitted at the cap. -/
theorem c7_max_utterance_duration (cfg : GateConfig)
    (frames : List (Nat × VadClass)) (hmax : 0 < cfg.maxFrames) :
    ((runGate cfg initGate frames).2.all
      (fun u => decide (u.length ≤ cfg.maxFrames))) = true :=
  runGate_bounded cfg hmax frames initGate
    ⟨fun h => by simp [initGate] at h, fun _ => rfl⟩

/-- Witness for C7: a long speech burst against a cap of three frames
per utterance. -/
theorem c7_max_utterance_duration_witness :
    ((runGate ⟨2, 3⟩ initGate
        [(0, VadClass.speech), (1, VadClass.speech),
         (2, VadClass.speech), (3, VadClass.speech),
         (4, VadClass.speech), (5, VadClass.speech),
         (6, VadClass.silence), (7, VadClass.silence)]).2.all
      (fun u => decide (u.length ≤ (3 : Nat)))) = true :=
  c7_max_utterance_duration ⟨2, 3⟩
    [(0, VadClass.speech), (1, VadClass.speech), (2, VadClass.speech),
     (3, VadClass.speech), (4, VadClass.speech), (5, VadClass.speech),
     (6, VadClass.silence), (7, VadClass.silence)] (by decide)
